import Mathlib

/-! A shallow embedding of the `SimpleVector` dynamic-array container from
`simple_vector.h`, together with proofs about its operations.

The buffer owned through `ArrayPtr` is modelled as a `List α` whose length is
the allocated extent; a write past the allocated extent (undefined behaviour
in the original) is modelled as a no-op via `List.set`, and a read past it
returns the default value.  Element moves are modelled as copies: the
moved-from value is unspecified in the original and is never observed through
a live index.  An iterator is modelled as its offset from `begin()`. -/

variable {α : Type} [Inhabited α]

/-- Modelled from the spec: the Owning Buffer (`ArrayPtr` from `array_ptr.h`,
which is not among the sources) allocates storage for `count` elements when
constructed; a freshly allocated slot holds the element type's default value
until written. -/
def arrayPtrNew (α : Type) [Inhabited α] (count : Nat) : List α :=
  List.replicate count default

/-- `std::copy` / `std::move` of `n` elements from buffer `src` starting at
offset `a` into a distinct buffer `dst` starting at offset `d`. -/
def copyFrom (src : List α) (a : Nat) (dst : List α) (d : Nat) : Nat → List α
  | 0 => dst
  | n + 1 => copyFrom src (a + 1) (dst.set d (src.getD a default)) (d + 1) n

/-- In-place forward `std::move(first, last, d_first)` within one buffer:
copies `n` elements, the step reading offset `a` and writing offset `d`, then
recursing with both moved up; later reads see earlier writes. -/
def moveRange (buf : List α) (a d : Nat) : Nat → List α
  | 0 => buf
  | n + 1 => moveRange (buf.set d (buf.getD a default)) (a + 1) (d + 1) n

/-- In-place `std::copy_backward(first, last, d_last)` within one buffer:
copies `n` elements backward, the step reading offset `b - 1` and writing
offset `dl - 1`, then recursing with both moved down. -/
def copyBackward (buf : List α) (b dl : Nat) : Nat → List α
  | 0 => buf
  | n + 1 => copyBackward (buf.set (dl - 1) (buf.getD (b - 1) default)) (b - 1) (dl - 1) n

/-- The placement-`new` loop of `Resize`: default-constructs `n` elements
starting at offset `s`. -/
def fillRange (buf : List α) (s : Nat) : Nat → List α
  | 0 => buf
  | n + 1 => fillRange (buf.set s default) (s + 1) n

/-- The manual shifting loop of the rvalue `Insert` overload:
`for (i = size_; i > index; --i) data_[i] = std::move(data_[i - 1])`, with
`n = size_ - index` the number of iterations. -/
def shiftRightLoop (buf : List α) (i : Nat) : Nat → List α
  | 0 => buf
  | n + 1 => shiftRightLoop (buf.set i (buf.getD (i - 1) default)) (i - 1) n

/-- The state of a `SimpleVector<Type>`: the owned buffer `data_` (whose
length is the allocated extent), the logical element count `size_`, and the
reported `capacity_`. -/
structure SimpleVector (α : Type) where
  data_ : List α
  size_ : Nat
  capacity_ : Nat

namespace SimpleVector

variable {α : Type} [Inhabited α]

/-- `operator[]`: unchecked read of `data_[index]`. -/
def idx (v : SimpleVector α) (index : Nat) : α :=
  v.data_.getD index default

/-- The default constructor: size 0, capacity 0, no allocation. -/
def mkEmpty : SimpleVector α := ⟨[], 0, 0⟩

/-- The `std::initializer_list` constructor: allocates `init.size()` slots and
copies the values in order; `size_ = capacity_ =` the list's length. -/
def fromList (init : List α) : SimpleVector α :=
  ⟨copyFrom init 0 (arrayPtrNew α init.length) 0 init.length, init.length, init.length⟩

/-- The `ReserveProxyObj` constructor: allocates `reserve.GetCapacity()`
slots, size 0, capacity as requested. -/
def fromReserve (capacity : Nat) : SimpleVector α :=
  ⟨arrayPtrNew α capacity, 0, capacity⟩

/-- `Clear()`: sets the size to zero, leaving buffer and capacity alone. -/
def Clear (v : SimpleVector α) : SimpleVector α :=
  { v with size_ := 0 }

/-- `At(index)`: throws `std::out_of_range("index >= size_")` when
`index >= size_`, otherwise returns `data_[index]`. -/
def At (v : SimpleVector α) (index : Nat) : Except String α :=
  if v.size_ ≤ index then Except.error "index >= size_"
  else Except.ok (v.data_.getD index default)

/-- `Resize(new_size)`: truncates when `new_size <= size_`; otherwise grows
the buffer to `max(new_size, capacity_ * 2)` when `new_size > capacity_`,
moving the live elements across, and in either case default-constructs the
elements of `[size_, new_size)` and sets the size. -/
def Resize (v : SimpleVector α) (new_size : Nat) : SimpleVector α :=
  if new_size ≤ v.size_ then
    { v with size_ := new_size }
  else
    let v1 :=
      if v.capacity_ < new_size then
        let new_capacity := max new_size (v.capacity_ * 2)
        let new_data := copyFrom v.data_ 0 (arrayPtrNew α new_capacity) 0 v.size_
        { v with data_ := new_data, capacity_ := new_capacity }
      else v
    { v1 with data_ := fillRange v1.data_ v.size_ (new_size - v.size_), size_ := new_size }

/-- `PushBack(item)`: when full, `Resize(size_ + 1)`, else just increment the
size; then write `item` into `data_[size_ - 1]`. -/
def PushBack (v : SimpleVector α) (item : α) : SimpleVector α :=
  let v1 :=
    if v.size_ = v.capacity_ then v.Resize (v.size_ + 1)
    else { v with size_ := v.size_ + 1 }
  { v1 with data_ := v1.data_.set (v1.size_ - 1) item }

/-- `Insert(pos, const Type& value)` with `index = pos - begin()`.  When full:
allocates `capacity_ == 0 ? 1 : capacity_ * 2` slots, `std::copy`s all of
`[begin, end)` into the new buffer, writes `value` at `new_data[index]`,
performs the `std::copy_backward` shift on the *old* buffer (whose result is
then discarded by the swap), swaps, increments size, updates capacity.  When
not full: `std::copy_backward` shifts `[index, size_)` up by one in place,
writes `value` at `index`, increments size.  Returns (state, returned
iterator's offset). -/
def Insert (v : SimpleVector α) (index : Nat) (value : α) : SimpleVector α × Nat :=
  if v.size_ = v.capacity_ then
    let grown := if v.capacity_ = 0 then 1 else v.capacity_ * 2
    let new_data := copyFrom v.data_ 0 (arrayPtrNew α grown) 0 v.size_
    let new_data1 := new_data.set index value
    let _discarded := copyBackward v.data_ v.size_ (v.size_ + 1) (v.size_ - index)
    ({ data_ := new_data1, size_ := v.size_ + 1, capacity_ := grown }, index)
  else
    let shifted := copyBackward v.data_ v.size_ (v.size_ + 1) (v.size_ - index)
    ({ v with data_ := shifted.set index value, size_ := v.size_ + 1 }, index)

/-- `Insert(pos, Type&& value)` with `index = pos - begin()`.  When full:
allocates `capacity_ == 0 ? 1 : capacity_ * 2` slots, moves the prefix
`[0, index)` to the new buffer, moves the suffix `[index, size_)` to offsets
`index + 1` onward, swaps, updates capacity.  When not full: shifts
`[index, size_)` up by one with the explicit downward loop.  Then writes
`value` at `index` and increments size. -/
def InsertMove (v : SimpleVector α) (index : Nat) (value : α) : SimpleVector α × Nat :=
  let v1 :=
    if v.size_ = v.capacity_ then
      let grown := if v.capacity_ = 0 then 1 else v.capacity_ * 2
      let nd := copyFrom v.data_ 0 (arrayPtrNew α grown) 0 index
      let nd1 := copyFrom v.data_ index nd (index + 1) (v.size_ - index)
      { data_ := nd1, size_ := v.size_, capacity_ := grown }
    else
      { v with data_ := shiftRightLoop v.data_ v.size_ (v.size_ - index) }
  ({ v1 with data_ := v1.data_.set index value, size_ := v.size_ + 1 }, index)

/-- `PopBack()`: decrements the size when non-empty, otherwise does nothing. -/
def PopBack (v : SimpleVector α) : SimpleVector α :=
  if v.size_ ≠ 0 then { v with size_ := v.size_ - 1 } else v

/-- `Erase(pos)` with `index = pos - begin()` (the asserted preconditions are
`begin <= pos < end` and a non-empty vector): `std::move`s
`[index + 1, size_)` down by one, decrements the size, returns the iterator
offset `index`. -/
def Erase (v : SimpleVector α) (index : Nat) : SimpleVector α × Nat :=
  let shifted := moveRange v.data_ (index + 1) index (v.size_ - (index + 1))
  ({ v with data_ := shifted, size_ := v.size_ - 1 }, index)

/-- The copy constructor: `data_(other.size_), size_(other.size_),
capacity_(other.capacity_)`, then `std::copy` of the live elements into the
fresh buffer. -/
def copyCtor (other : SimpleVector α) : SimpleVector α :=
  ⟨copyFrom other.data_ 0 (arrayPtrNew α other.size_) 0 other.size_,
   other.size_, other.capacity_⟩

/-- The move constructor: allocates `other.size_` slots, moves the live
elements across, then calls `other.Clear()`.  Returns
(destination, source after the move). -/
def moveCtor (other : SimpleVector α) : SimpleVector α × SimpleVector α :=
  (⟨copyFrom other.data_ 0 (arrayPtrNew α other.size_) 0 other.size_,
    other.size_, other.capacity_⟩,
   other.Clear)

/-- Copy assignment `operator=`: guarded by the `this != &rhs` identity check
(the `sameObject` flag); when the operands are distinct it copy-constructs a
temporary from `rhs` and swaps it with `*this`, so `*this` becomes that
copy. -/
def assign (lhs rhs : SimpleVector α) (sameObject : Bool) : SimpleVector α :=
  if sameObject then lhs else copyCtor rhs

end SimpleVector

/-- `k` successive `PushBack` calls with the values of `items`, in order. -/
def pushAll (v : SimpleVector α) (items : List α) : SimpleVector α :=
  items.foldl SimpleVector.PushBack v

section BufferLemmas

variable {α : Type} [Inhabited α]

lemma getD_set_self (l : List α) (i : Nat) (x : α) :
    (l.set i x).getD i default = if i < l.length then x else (default : α) := by
  split
  · simp only [List.getD_eq_getElem?_getD, List.getElem?_set_self ‹i < l.length›,
      Option.getD_some]
  · rw [List.set_eq_of_length_le (by omega)]
    exact List.getD_eq_default _ _ (by omega)

lemma getD_set_ne (l : List α) (i j : Nat) (x : α) (h : i ≠ j) :
    (l.set i x).getD j default = l.getD j default := by
  simp only [List.getD_eq_getElem?_getD, List.getElem?_set_ne h]

lemma copyFrom_length (src : List α) :
    ∀ (n a : Nat) (dst : List α) (d : Nat),
      (copyFrom src a dst d n).length = dst.length := by
  intro n
  induction n with
  | zero => intro a dst d; rfl
  | succ n ih =>
    intro a dst d
    rw [copyFrom, ih]
    exact List.length_set ..

lemma copyFrom_getD_lt (src : List α) :
    ∀ (n a : Nat) (dst : List α) (d j : Nat), j < d →
      (copyFrom src a dst d n).getD j default = dst.getD j default := by
  intro n
  induction n with
  | zero => intro a dst d j _; rfl
  | succ n ih =>
    intro a dst d j hj
    rw [copyFrom, ih (a + 1) _ (d + 1) j (by omega)]
    exact getD_set_ne _ _ _ _ (by omega)

lemma copyFrom_getD (src : List α) :
    ∀ (n a : Nat) (dst : List α) (d k : Nat), k < n → d + n ≤ dst.length →
      (copyFrom src a dst d n).getD (d + k) default = src.getD (a + k) default := by
  intro n
  induction n with
  | zero => intro a dst d k hk _; omega
  | succ n ih =>
    intro a dst d k hk hlen
    rw [copyFrom]
    cases k with
    | zero =>
      simp only [Nat.add_zero]
      rw [copyFrom_getD_lt src n (a + 1) _ (d + 1) d (by omega),
        getD_set_self, if_pos (by omega)]
    | succ k =>
      have h1 : d + (k + 1) = (d + 1) + k := by omega
      have h2 : a + (k + 1) = (a + 1) + k := by omega
      rw [h1, h2, ih (a + 1) _ (d + 1) k (by omega) (by rw [List.length_set]; omega)]

lemma moveRange_length (n : Nat) :
    ∀ (buf : List α) (a d : Nat), (moveRange buf a d n).length = buf.length := by
  induction n with
  | zero => intro buf a d; rfl
  | succ n ih =>
    intro buf a d
    rw [moveRange, ih]
    exact List.length_set ..

lemma moveRange_getD_lt :
    ∀ (n : Nat) (buf : List α) (a d j : Nat), j < d →
      (moveRange buf a d n).getD j default = buf.getD j default := by
  intro n
  induction n with
  | zero => intro buf a d j _; rfl
  | succ n ih =>
    intro buf a d j hj
    rw [moveRange, ih _ (a + 1) (d + 1) j (by omega)]
    exact getD_set_ne _ _ _ _ (by omega)

lemma moveRange_getD :
    ∀ (n : Nat) (buf : List α) (a d k : Nat), d < a → k < n →
      (moveRange buf a d n).getD (d + k) default = buf.getD (a + k) default := by
  intro n
  induction n with
  | zero => intro buf a d k _ hk; omega
  | succ n ih =>
    intro buf a d k hda hk
    rw [moveRange]
    cases k with
    | zero =>
      simp only [Nat.add_zero]
      rw [moveRange_getD_lt n _ (a + 1) (d + 1) d (by omega), getD_set_self]
      split
      · rfl
      · rw [List.getD_eq_default _ _ (by omega)]
    | succ k =>
      have h1 : d + (k + 1) = (d + 1) + k := by omega
      have h2 : a + (k + 1) = (a + 1) + k := by omega
      rw [h1, h2, ih _ (a + 1) (d + 1) k (by omega) (by omega),
        getD_set_ne _ _ _ _ (by omega)]

lemma fillRange_length (n : Nat) :
    ∀ (buf : List α) (s : Nat), (fillRange buf s n).length = buf.length := by
  induction n with
  | zero => intro buf s; rfl
  | succ n ih =>
    intro buf s
    rw [fillRange, ih]
    exact List.length_set ..

lemma fillRange_getD_lt :
    ∀ (n : Nat) (buf : List α) (s j : Nat), j < s →
      (fillRange buf s n).getD j default = buf.getD j default := by
  intro n
  induction n with
  | zero => intro buf s j _; rfl
  | succ n ih =>
    intro buf s j hj
    rw [fillRange, ih _ (s + 1) j (by omega)]
    exact getD_set_ne _ _ _ _ (by omega)

lemma fillRange_getD :
    ∀ (n : Nat) (buf : List α) (s k : Nat), k < n → s + n ≤ buf.length →
      (fillRange buf s n).getD (s + k) default = (default : α) := by
  intro n
  induction n with
  | zero => intro buf s k hk _; omega
  | succ n ih =>
    intro buf s k hk hlen
    rw [fillRange]
    cases k with
    | zero =>
      simp only [Nat.add_zero]
      rw [fillRange_getD_lt n _ (s + 1) s (by omega),
        getD_set_self, if_pos (by omega)]
    | succ k =>
      have h1 : s + (k + 1) = (s + 1) + k := by omega
      rw [h1, ih _ (s + 1) k (by omega) (by rw [List.length_set]; omega)]

end BufferLemmas

section OperationLemmas

namespace SimpleVector

variable {α : Type} [Inhabited α]

lemma Resize_size (v : SimpleVector α) (n : Nat) : (v.Resize n).size_ = n := by
  unfold Resize
  split <;> rfl

lemma Resize_truncate (v : SimpleVector α) (n : Nat) (h : n ≤ v.size_) :
    v.Resize n = { v with size_ := n } := by
  unfold Resize
  rw [if_pos h]

lemma Resize_capacity_grow (v : SimpleVector α) (n : Nat) (h1 : v.size_ < n)
    (h2 : v.capacity_ < n) :
    (v.Resize n).capacity_ = max n (v.capacity_ * 2) := by
  unfold Resize
  rw [if_neg (by omega)]
  simp only [if_pos h2]

lemma Resize_capacity_nogrow (v : SimpleVector α) (n : Nat) (h1 : v.size_ < n)
    (h2 : n ≤ v.capacity_) :
    (v.Resize n).capacity_ = v.capacity_ := by
  unfold Resize
  rw [if_neg (by omega)]
  simp only [if_neg (by omega : ¬ v.capacity_ < n)]

lemma Resize_length_grow (v : SimpleVector α) (n : Nat) (h1 : v.size_ < n)
    (h2 : v.capacity_ < n) :
    (v.Resize n).data_.length = max n (v.capacity_ * 2) := by
  unfold Resize
  rw [if_neg (by omega)]
  simp only [if_pos h2]
  rw [fillRange_length, copyFrom_length]
  simp [arrayPtrNew]

lemma Resize_length_nogrow (v : SimpleVector α) (n : Nat) (h1 : v.size_ < n)
    (h2 : n ≤ v.capacity_) :
    (v.Resize n).data_.length = v.data_.length := by
  unfold Resize
  rw [if_neg (by omega)]
  simp only [if_neg (by omega : ¬ v.capacity_ < n)]
  rw [fillRange_length]

lemma Resize_idx_lt (v : SimpleVector α) (n i : Nat) (hi : i < v.size_) :
    (v.Resize n).idx i = v.idx i := by
  unfold Resize
  by_cases h : n ≤ v.size_
  · rw [if_pos h]; rfl
  · rw [if_neg h]
    by_cases h2 : v.capacity_ < n
    · simp only [if_pos h2, idx]
      rw [fillRange_getD_lt _ _ _ _ hi]
      have := copyFrom_getD v.data_ v.size_ 0
        (arrayPtrNew α (max n (v.capacity_ * 2))) 0 i hi
        (by simp [arrayPtrNew]; omega)
      simpa using this
    · simp only [if_neg h2, idx]
      rw [fillRange_getD_lt _ _ _ _ hi]

lemma Resize_idx_new (v : SimpleVector α) (n i : Nat) (hlen : v.capacity_ ≤ v.data_.length)
    (h1 : v.size_ ≤ i) (hin : i < n) :
    (v.Resize n).idx i = default := by
  unfold Resize
  rw [if_neg (by omega)]
  by_cases h2 : v.capacity_ < n
  · simp only [if_pos h2, idx]
    have := fillRange_getD (n - v.size_)
      (copyFrom v.data_ 0 (arrayPtrNew α (max n (v.capacity_ * 2))) 0 v.size_)
      v.size_ (i - v.size_) (by omega)
      (by rw [copyFrom_length]; simp [arrayPtrNew]; omega)
    have heq : v.size_ + (i - v.size_) = i := by omega
    rw [heq] at this
    exact this
  · simp only [if_neg h2, idx]
    have := fillRange_getD (n - v.size_) v.data_ v.size_ (i - v.size_)
      (by omega) (by omega)
    have heq : v.size_ + (i - v.size_) = i := by omega
    rw [heq] at this
    exact this

lemma PushBack_size (v : SimpleVector α) (x : α) :
    (v.PushBack x).size_ = v.size_ + 1 := by
  unfold PushBack
  by_cases h : v.size_ = v.capacity_
  · simp only [if_pos h]
    exact Resize_size ..
  · simp only [if_neg h]

lemma PushBack_idx_lt (v : SimpleVector α) (x : α) (i : Nat) (hi : i < v.size_) :
    (v.PushBack x).idx i = v.idx i := by
  unfold PushBack
  by_cases h : v.size_ = v.capacity_
  · simp only [if_pos h, idx]
    rw [Resize_size, getD_set_ne _ _ _ _ (by omega)]
    exact Resize_idx_lt v (v.size_ + 1) i hi
  · simp only [if_neg h, idx]
    rw [getD_set_ne _ _ _ _ (by omega)]

lemma PushBack_idx_last (v : SimpleVector α) (x : α)
    (h1 : v.size_ ≤ v.capacity_) (h2 : v.capacity_ ≤ v.data_.length) :
    (v.PushBack x).idx v.size_ = x := by
  unfold PushBack
  by_cases h : v.size_ = v.capacity_
  · simp only [if_pos h, idx]
    rw [Resize_size]
    simp only [Nat.add_sub_cancel]
    have hlen : v.size_ < (v.Resize (v.size_ + 1)).data_.length := by
      rw [Resize_length_grow v (v.size_ + 1) (by omega) (by omega)]
      omega
    rw [getD_set_self, if_pos hlen]
  · simp only [if_neg h, idx]
    simp only [Nat.add_sub_cancel]
    rw [getD_set_self, if_pos (by omega : v.size_ < v.data_.length)]

lemma PushBack_wf (v : SimpleVector α) (x : α)
    (h1 : v.size_ ≤ v.capacity_) (h2 : v.capacity_ ≤ v.data_.length) :
    (v.PushBack x).size_ ≤ (v.PushBack x).capacity_ ∧
    (v.PushBack x).capacity_ ≤ (v.PushBack x).data_.length := by
  unfold PushBack
  by_cases h : v.size_ = v.capacity_
  · simp only [if_pos h]
    constructor
    · show (v.Resize (v.size_ + 1)).size_ ≤ (v.Resize (v.size_ + 1)).capacity_
      rw [Resize_size, Resize_capacity_grow v _ (by omega) (by omega)]
      omega
    · show (v.Resize (v.size_ + 1)).capacity_ ≤ (List.set _ _ _).length
      rw [List.length_set, Resize_capacity_grow v _ (by omega) (by omega),
        Resize_length_grow v _ (by omega) (by omega)]
  · simp only [if_neg h]
    constructor
    · show v.size_ + 1 ≤ v.capacity_
      omega
    · show v.capacity_ ≤ (List.set _ _ _).length
      rw [List.length_set]
      exact h2

lemma Insert_capacity_full (v : SimpleVector α) (index : Nat) (value : α)
    (h : v.size_ = v.capacity_) :
    ((v.Insert index value).1).capacity_
      = if v.capacity_ = 0 then 1 else v.capacity_ * 2 := by
  unfold Insert
  simp only [if_pos h]

end SimpleVector

lemma pushAll_cons (v : SimpleVector α) (x : α) (xs : List α) :
    pushAll v (x :: xs) = pushAll (v.PushBack x) xs := rfl

lemma pushAll_spec (items : List α) :
    ∀ v : SimpleVector α, v.size_ ≤ v.capacity_ → v.capacity_ ≤ v.data_.length →
      (pushAll v items).size_ = v.size_ + items.length ∧
      (pushAll v items).size_ ≤ (pushAll v items).capacity_ ∧
      (pushAll v items).capacity_ ≤ (pushAll v items).data_.length ∧
      (∀ i, i < v.size_ → (pushAll v items).idx i = v.idx i) ∧
      (∀ k, k < items.length →
        (pushAll v items).idx (v.size_ + k) = items.getD k default) := by
  induction items with
  | nil =>
    intro v h1 h2
    exact ⟨by simp [pushAll], h1, h2, fun i _ => rfl, fun k hk => absurd hk (by simp)⟩
  | cons x xs ih =>
    intro v h1 h2
    have hpb_size := SimpleVector.PushBack_size v x
    have hpb_wf := SimpleVector.PushBack_wf v x h1 h2
    have H := ih (v.PushBack x) hpb_wf.1 hpb_wf.2
    refine ⟨?_, ?_, ?_, ?_, ?_⟩
    · rw [pushAll_cons, H.1, hpb_size, List.length_cons]
      omega
    · rw [pushAll_cons]
      exact H.2.1
    · rw [pushAll_cons]
      exact H.2.2.1
    · intro i hi
      rw [pushAll_cons, H.2.2.2.1 i (by omega)]
      exact SimpleVector.PushBack_idx_lt v x i hi
    · intro k hk
      cases k with
      | zero =>
        rw [pushAll_cons, Nat.add_zero, List.getD_cons_zero,
          H.2.2.2.1 v.size_ (by omega)]
        exact SimpleVector.PushBack_idx_last v x h1 h2
      | succ k =>
        have hlen : k < xs.length := by
          simp only [List.length_cons] at hk
          omega
        have := H.2.2.2.2 k hlen
        rw [hpb_size] at this
        rw [pushAll_cons, List.getD_cons_succ,
          show v.size_ + (k + 1) = v.size_ + 1 + k by omega]
        exact this

end OperationLemmas

section ClaimTheorems

variable {α : Type} [Inhabited α]

/-- C1: the claim that `Insert(p, value)` always produces the old elements
before `p`, then `value`, then the old elements from `p` onward shifted right
fails on the code.  At the failing input — the full vector `[1, 2, 3]`
(size 3 = capacity 3), lvalue-insert of `0` at index 0 — the copying overload
copies the whole old range into the new buffer, then overwrites slot 0 with
the value, while the `copy_backward` shift is performed on the old, discarded
buffer: the old element `1` is lost, the element at index 1 of the result is
`2` rather than the `1` the claim requires. -/
theorem c1_insert_full_loses_element :
    (((SimpleVector.fromList [1, 2, 3] : SimpleVector Nat).Insert 0 0).1.size_ = 4) ∧
    (((SimpleVector.fromList [1, 2, 3] : SimpleVector Nat).Insert 0 0).1.idx 0 = 0) ∧
    (((SimpleVector.fromList [1, 2, 3] : SimpleVector Nat).Insert 0 0).1.idx 1 = 2) ∧
    ¬ (((SimpleVector.fromList [1, 2, 3] : SimpleVector Nat).Insert 0 0).1.idx 1 = 1) := by
  decide

/-- C2: the claim that the copy constructor's capacity equals the source's
size fails on the code.  Copying a vector with size 3 and capacity 10
(built by the reserve constructor plus `Resize(3)`) yields a copy that
allocates only 3 slots yet reports capacity 10, because the member
initialiser is `capacity_(other.capacity_)` while the buffer is constructed
from `other.size_`. -/
theorem c2_copy_capacity_not_size :
    ((SimpleVector.copyCtor ((SimpleVector.fromReserve 10 : SimpleVector Nat).Resize 3)).size_ = 3) ∧
    ((SimpleVector.copyCtor ((SimpleVector.fromReserve 10 : SimpleVector Nat).Resize 3)).capacity_ = 10) ∧
    ((SimpleVector.copyCtor ((SimpleVector.fromReserve 10 : SimpleVector Nat).Resize 3)).data_.length = 3) ∧
    ¬ ((SimpleVector.copyCtor ((SimpleVector.fromReserve 10 : SimpleVector Nat).Resize 3)).capacity_ = 3) := by
  decide

/-- C3 counterexample: moving from `[1, 2]` leaves the source with
capacity 2, not 0 — the move constructor only calls `other.Clear()`, which
zeroes the size but keeps capacity and allocation. -/
theorem c3_move_counterexample :
    (((SimpleVector.fromList [1, 2] : SimpleVector Nat).moveCtor).2.capacity_ = 2) ∧
    ¬ (((SimpleVector.fromList [1, 2] : SimpleVector Nat).moveCtor).2.capacity_ = 0) := by
  decide

/-- C3 (amended): after move construction the source is left with size 0 but
retains its capacity and its allocation, while the destination holds the
source's former elements in order with the source's former size. -/
theorem c3_move_ctor_amended (other : SimpleVector α) :
    (other.moveCtor).2.size_ = 0 ∧
    (other.moveCtor).2.capacity_ = other.capacity_ ∧
    (other.moveCtor).2.data_ = other.data_ ∧
    (other.moveCtor).1.size_ = other.size_ ∧
    (∀ i, i < other.size_ → (other.moveCtor).1.idx i = other.idx i) := by
  refine ⟨rfl, rfl, rfl, rfl, ?_⟩
  intro i hi
  show (copyFrom other.data_ 0 (arrayPtrNew α other.size_) 0 other.size_).getD i default
      = other.data_.getD i default
  have := copyFrom_getD other.data_ other.size_ 0 (arrayPtrNew α other.size_) 0 i hi
    (by simp [arrayPtrNew])
  simpa using this

/-- C3 witness: the amended statement evaluated on the concrete vector
`[5, 6]`. -/
theorem c3_move_ctor_amended_witness :
    (((SimpleVector.fromList [5, 6] : SimpleVector Nat).moveCtor).2.size_ = 0) ∧
    (((SimpleVector.fromList [5, 6] : SimpleVector Nat).moveCtor).1.idx 1
      = (SimpleVector.fromList [5, 6] : SimpleVector Nat).idx 1) :=
  ⟨(c3_move_ctor_amended _).1, (c3_move_ctor_amended _).2.2.2.2 1 (by decide)⟩

/-- C4: the claim that every constructor preserves the invariant
`size_ ≤ capacity_ ≤ allocated extent` fails on the code: the copy
constructor applied to a well-formed vector with size 3 and capacity 10
produces a state whose reported capacity (10) exceeds its allocated
extent (3). -/
theorem c4_copy_breaks_invariant :
    (((SimpleVector.fromReserve 10 : SimpleVector Nat).Resize 3).size_
        ≤ ((SimpleVector.fromReserve 10 : SimpleVector Nat).Resize 3).capacity_) ∧
    (((SimpleVector.fromReserve 10 : SimpleVector Nat).Resize 3).capacity_
        ≤ ((SimpleVector.fromReserve 10 : SimpleVector Nat).Resize 3).data_.length) ∧
    ¬ ((SimpleVector.copyCtor ((SimpleVector.fromReserve 10 : SimpleVector Nat).Resize 3)).capacity_
        ≤ (SimpleVector.copyCtor ((SimpleVector.fromReserve 10 : SimpleVector Nat).Resize 3)).data_.length) := by
  decide

/-- C5: `At(i)` signals the out-of-range error exactly when `i ≥ size_`
(`At` mutates nothing — it is a pure function of the state), and for every
valid `i < size_` it returns the same element as the unchecked
`operator[]`. -/
theorem c5_at_spec (v : SimpleVector α) (i : Nat) :
    (v.size_ ≤ i → v.At i = Except.error "index >= size_") ∧
    (i < v.size_ → v.At i = Except.ok (v.idx i)) := by
  constructor
  · intro h
    unfold SimpleVector.At
    rw [if_pos h]
  · intro h
    unfold SimpleVector.At
    rw [if_neg (by omega)]
    rfl

/-- C5 witness: checked access on the concrete vector `[4, 5]`, at the
out-of-range index 7 and at the valid index 0. -/
theorem c5_at_spec_witness :
    ((SimpleVector.fromList [4, 5] : SimpleVector Nat).At 7
        = Except.error "index >= size_") ∧
    ((SimpleVector.fromList [4, 5] : SimpleVector Nat).At 0
        = Except.ok ((SimpleVector.fromList [4, 5] : SimpleVector Nat).idx 0)) :=
  ⟨(c5_at_spec _ 7).1 (by decide), (c5_at_spec _ 0).2 (by decide)⟩

/-- C6: whenever an operation must grow storage — `Resize` beyond capacity,
`PushBack` when full, `Insert` when full — the new capacity is
`max(capacity_ * 2, required size)`; in particular inserting a single element
into a capacity-0 vector yields capacity exactly 1. -/
theorem c6_growth_policy (v : SimpleVector α) (n : Nat) (item value : α) (index : Nat)
    (hv : v.size_ ≤ v.capacity_) :
    (v.capacity_ < n → (v.Resize n).capacity_ = max (v.capacity_ * 2) n) ∧
    (v.size_ = v.capacity_ →
      (v.PushBack item).capacity_ = max (v.capacity_ * 2) (v.size_ + 1)) ∧
    (v.size_ = v.capacity_ →
      ((v.Insert index value).1).capacity_ = max (v.capacity_ * 2) (v.size_ + 1)) ∧
    (v.capacity_ = 0 → ((v.Insert index value).1).capacity_ = 1) := by
  refine ⟨?_, ?_, ?_, ?_⟩
  · intro h
    rw [SimpleVector.Resize_capacity_grow v n (by omega) h]
    omega
  · intro h
    unfold SimpleVector.PushBack
    simp only [if_pos h]
    show (v.Resize (v.size_ + 1)).capacity_ = max (v.capacity_ * 2) (v.size_ + 1)
    rw [SimpleVector.Resize_capacity_grow v _ (by omega) (by omega)]
    omega
  · intro h
    rw [SimpleVector.Insert_capacity_full v index value h]
    split
    · omega
    · omega
  · intro h
    have hsz : v.size_ = v.capacity_ := by omega
    rw [SimpleVector.Insert_capacity_full v index value hsz, if_pos h]

/-- C6 witness: the growth rule evaluated on the concrete vector `[1, 2]`
resized to 5, and single-element insertion into the capacity-0 empty
vector. -/
theorem c6_growth_policy_witness :
    (((SimpleVector.fromList [1, 2] : SimpleVector Nat).Resize 5).capacity_
        = max ((SimpleVector.fromList [1, 2] : SimpleVector Nat).capacity_ * 2) 5) ∧
    (((SimpleVector.mkEmpty : SimpleVector Nat).Insert 0 7).1.capacity_ = 1) :=
  ⟨(c6_growth_policy (SimpleVector.fromList [1, 2]) 5 9 9 0 (by decide)).1 (by decide),
   (c6_growth_policy (SimpleVector.mkEmpty : SimpleVector Nat) 5 9 7 0 (by decide)).2.2.2 (by decide)⟩

/-- C7: `Resize(new_size)` results in `size_ = new_size`; truncation keeps
the buffer, the capacity and the first `new_size` elements; growth keeps the
first `size_` elements and default-initialises the elements of
`[size_, new_size)`. -/
theorem c7_resize_spec (v : SimpleVector α) (n : Nat)
    (_h1 : v.size_ ≤ v.capacity_) (h2 : v.capacity_ ≤ v.data_.length) :
    (v.Resize n).size_ = n ∧
    (n ≤ v.size_ → (v.Resize n).data_ = v.data_ ∧ (v.Resize n).capacity_ = v.capacity_ ∧
      (∀ i, i < n → (v.Resize n).idx i = v.idx i)) ∧
    (v.size_ < n →
      (∀ i, i < v.size_ → (v.Resize n).idx i = v.idx i) ∧
      (∀ i, v.size_ ≤ i → i < n → (v.Resize n).idx i = default)) := by
  refine ⟨SimpleVector.Resize_size v n, ?_, ?_⟩
  · intro h
    rw [SimpleVector.Resize_truncate v n h]
    exact ⟨rfl, rfl, fun i _ => rfl⟩
  · intro _
    exact ⟨fun i hi => SimpleVector.Resize_idx_lt v n i hi,
           fun i hi1 hi2 => SimpleVector.Resize_idx_new v n i h2 hi1 hi2⟩

/-- C7 witness: resizing the concrete vector `[1, 2]` (size 2, capacity 2)
up to 5 and down to 1. -/
theorem c7_resize_spec_witness :
    (((SimpleVector.fromList [1, 2] : SimpleVector Nat).Resize 5).size_ = 5) ∧
    (((SimpleVector.fromList [1, 2] : SimpleVector Nat).Resize 5).idx 1
      = (SimpleVector.fromList [1, 2] : SimpleVector Nat).idx 1) ∧
    (((SimpleVector.fromList [1, 2] : SimpleVector Nat).Resize 5).idx 4 = default) ∧
    (((SimpleVector.fromList [1, 2] : SimpleVector Nat).Resize 1).data_
      = (SimpleVector.fromList [1, 2] : SimpleVector Nat).data_) :=
  ⟨(c7_resize_spec _ 5 (by decide) (by decide)).1,
   ((c7_resize_spec _ 5 (by decide) (by decide)).2.2 (by decide)).1 1 (by decide),
   ((c7_resize_spec _ 5 (by decide) (by decide)).2.2 (by decide)).2 4 (by decide) (by decide),
   ((c7_resize_spec _ 1 (by decide) (by decide)).2.1 (by decide)).1⟩

/-- C8: for a position `index < size_` (the asserted precondition),
`Erase` shifts the elements of `[index + 1, size_)` left by one, decrements
the size, and returns the iterator offset `index`, which then addresses the
element that followed the erased one (or `end` when the erased element was
last). -/
theorem c8_erase_spec (v : SimpleVector α) (index : Nat) (_hpos : index < v.size_) :
    (v.Erase index).2 = index ∧
    (v.Erase index).1.size_ = v.size_ - 1 ∧
    (∀ i, i < index → (v.Erase index).1.idx i = v.idx i) ∧
    (∀ i, index ≤ i → i + 1 < v.size_ → (v.Erase index).1.idx i = v.idx (i + 1)) := by
  refine ⟨rfl, rfl, ?_, ?_⟩
  · intro i hi
    show (moveRange v.data_ (index + 1) index (v.size_ - (index + 1))).getD i default
        = v.data_.getD i default
    exact moveRange_getD_lt _ _ _ _ i hi
  · intro i hi1 hi2
    show (moveRange v.data_ (index + 1) index (v.size_ - (index + 1))).getD i default
        = v.data_.getD (i + 1) default
    have := moveRange_getD (v.size_ - (index + 1)) v.data_ (index + 1) index (i - index)
      (by omega) (by omega)
    have heq1 : index + (i - index) = i := by omega
    have heq2 : index + 1 + (i - index) = i + 1 := by omega
    rw [heq1, heq2] at this
    exact this

/-- C8 witness: erasing index 1 from the concrete vector `[1, 2, 3]`
yields `[1, 3]` with the returned iterator at the value 3. -/
theorem c8_erase_spec_witness :
    (((SimpleVector.fromList [1, 2, 3] : SimpleVector Nat).Erase 1).2 = 1) ∧
    (((SimpleVector.fromList [1, 2, 3] : SimpleVector Nat).Erase 1).1.size_ = 2) ∧
    (((SimpleVector.fromList [1, 2, 3] : SimpleVector Nat).Erase 1).1.idx 0
      = (SimpleVector.fromList [1, 2, 3] : SimpleVector Nat).idx 0) ∧
    (((SimpleVector.fromList [1, 2, 3] : SimpleVector Nat).Erase 1).1.idx 1
      = (SimpleVector.fromList [1, 2, 3] : SimpleVector Nat).idx 2) :=
  ⟨(c8_erase_spec _ 1 (by decide)).1,
   (c8_erase_spec _ 1 (by decide)).2.1,
   (c8_erase_spec _ 1 (by decide)).2.2.1 0 (by decide),
   (c8_erase_spec _ 1 (by decide)).2.2.2 1 (by decide) (by decide)⟩

/-- C9: starting from the default-constructed vector, after pushing the
values of `items` in order, the size equals `items.length` and every pushed
value is retained in order. -/
theorem c9_pushback_retains (items : List α) :
    (pushAll (SimpleVector.mkEmpty : SimpleVector α) items).size_ = items.length ∧
    (∀ i, i < items.length →
      (pushAll (SimpleVector.mkEmpty : SimpleVector α) items).idx i
        = items.getD i default) := by
  have H := pushAll_spec items (SimpleVector.mkEmpty : SimpleVector α)
    (Nat.le_refl 0) (Nat.le_refl 0)
  constructor
  · have := H.1
    simpa [SimpleVector.mkEmpty] using this
  · intro i hi
    have := H.2.2.2.2 i hi
    simpa [SimpleVector.mkEmpty] using this

/-- C9 witness: pushing `3, 1, 2` onto the empty vector. -/
theorem c9_pushback_retains_witness :
    ((pushAll (SimpleVector.mkEmpty : SimpleVector Nat) [3, 1, 2]).size_ = 3) ∧
    ((pushAll (SimpleVector.mkEmpty : SimpleVector Nat) [3, 1, 2]).idx 1
      = List.getD [3, 1, 2] 1 default) :=
  ⟨(c9_pushback_retains [3, 1, 2]).1, (c9_pushback_retains [3, 1, 2]).2 1 (by decide)⟩

/-- C10: copy assignment is self-assignment safe — assigning a vector to
itself (the `this != &rhs` guard taken) leaves it unchanged — and for
distinct operands the left-hand side becomes a fresh deep copy of the
right-hand side's live elements. -/
theorem c10_assign_spec (v rhs : SimpleVector α) :
    SimpleVector.assign v v true = v ∧
    (SimpleVector.assign v rhs false).size_ = rhs.size_ ∧
    (∀ i, i < rhs.size_ → (SimpleVector.assign v rhs false).idx i = rhs.idx i) := by
  refine ⟨rfl, rfl, ?_⟩
  intro i hi
  show (copyFrom rhs.data_ 0 (arrayPtrNew α rhs.size_) 0 rhs.size_).getD i default
      = rhs.data_.getD i default
  have := copyFrom_getD rhs.data_ rhs.size_ 0 (arrayPtrNew α rhs.size_) 0 i hi
    (by simp [arrayPtrNew])
  simpa using this

/-- C10 witness: self-assignment of `[9]` and assignment of `[1, 2]`
into `[9]`. -/
theorem c10_assign_spec_witness :
    (SimpleVector.assign (SimpleVector.fromList [9]) (SimpleVector.fromList [9]) true
      = (SimpleVector.fromList [9] : SimpleVector Nat)) ∧
    ((SimpleVector.assign (SimpleVector.fromList [9]) (SimpleVector.fromList [1, 2]) false).idx 1
      = (SimpleVector.fromList [1, 2] : SimpleVector Nat).idx 1) :=
  ⟨(c10_assign_spec (SimpleVector.fromList [9]) (SimpleVector.fromList [9])).1,
   (c10_assign_spec (SimpleVector.fromList [9]) (SimpleVector.fromList [1, 2])).2.2 1 (by decide)⟩

end ClaimTheorems

section Examples

example : (SimpleVector.fromList [1, 2, 3] : SimpleVector Nat).data_ = [1, 2, 3] := by decide

example : ((SimpleVector.fromList [1, 2, 3] : SimpleVector Nat).Insert 0 0).1.data_
    = [0, 2, 3, 0, 0, 0] := by decide

example : ((SimpleVector.fromList [1, 2, 3] : SimpleVector Nat).InsertMove 0 0).1.data_
    = [0, 1, 2, 3, 0, 0] := by decide

example : ((SimpleVector.fromList [1, 2, 3] : SimpleVector Nat).Erase 1).1.data_
    = [1, 3, 3] := by decide

example : ((SimpleVector.fromList [1, 2] : SimpleVector Nat).Resize 5).data_
    = [1, 2, 0, 0, 0] := by decide

example : ((SimpleVector.fromList [1, 2] : SimpleVector Nat).Resize 5).capacity_ = 5 := by decide

example : ((SimpleVector.fromReserve 10 : SimpleVector Nat).Resize 3).capacity_ = 10 := by decide

example : (SimpleVector.copyCtor ((SimpleVector.fromReserve 10 : SimpleVector Nat).Resize 3)).capacity_
    = 10 := by decide

example : (SimpleVector.copyCtor ((SimpleVector.fromReserve 10 : SimpleVector Nat).Resize 3)).data_.length
    = 3 := by decide

example : ((SimpleVector.fromList [1, 2] : SimpleVector Nat).moveCtor).2.capacity_ = 2 := by decide

example : ((SimpleVector.mkEmpty : SimpleVector Nat).PushBack 7).data_ = [7] := by decide

example : (((SimpleVector.mkEmpty : SimpleVector Nat).PushBack 7).PushBack 8).data_ = [7, 8] := by decide

end Examples
